import Mathlib

/-!
Verification development for the morepath routing/dispatch/link core.

Shallow embedding of:
* `morepath/request.py` — `Request.link`, `Request.view`, `follow_defers`,
  `link`, `mounted_link`, `Request._encode_link`, `fixed_urlencode`;
* `morepath/core.py` — `traject_consume`, `get_response`, the dispatch
  predicates and their fallbacks, and the built-in converters.

Python dicts are modelled as association lists with `dictUpdate` mirroring
`dict.update` (existing keys overwritten in place, new keys appended);
Python mutable request state is modelled by explicit state passing; Python
exceptions are modelled with `Except`/sum-style result types.
-/

namespace Morepath

/-- Keyed association list standing in for a Python `dict`. -/
abbrev Assoc (κ ν : Type) := List (κ × ν)

/-- Python `old.update(new)`: keys already in `old` keep their position but
take the value from `new`; keys only in `new` are appended in order. -/
def dictUpdate {κ ν : Type} [DecidableEq κ] (old new : Assoc κ ν) : Assoc κ ν :=
  (old.map (fun p =>
    match new.lookup p.1 with
    | some v => (p.1, v)
    | none => p)) ++
  new.filter (fun p => (old.lookup p.1).isNone)

/-- Python `d[k] = v` on a dict. -/
def dictSet {κ ν : Type} [DecidableEq κ] (d : Assoc κ ν) (k : κ) (v : ν) : Assoc κ ν :=
  dictUpdate d [(k, v)]

/-- Python `s.strip('/')`: remove leading and trailing slashes. -/
def stripSlashes (s : String) : String :=
  String.mk ((((s.data.dropWhile (fun c => c = '/')).reverse).dropWhile
    (fun c => c = '/')).reverse)

/-! ### Mounted applications (`morepath/request.py`)

A `morepath.App`/`Mount` instance: an identifier plus the parent chain
(`app.parent`, `None` at the root).  The chain is finite by construction
(mounts are created by finitely many nested `mount` directives), which the
inductive representation makes structural. -/

inductive App where
  | mk (id : Nat) (parent : Option App)

/-- Equality of apps (id and whole parent chain) is decidable. -/
def App.decEq : (a b : App) → Decidable (a = b)
  | .mk i none, .mk j none =>
    if h : i = j then .isTrue (by rw [h])
    else .isFalse (by intro hh; injection hh with h1 _; exact h h1)
  | .mk i (some p), .mk j (some q) =>
    if h : i = j then
      match App.decEq p q with
      | .isTrue hpq => .isTrue (by rw [h, hpq])
      | .isFalse hpq => .isFalse (by
          intro hh
          injection hh with _ h2
          injection h2 with h3
          exact hpq h3)
    else .isFalse (by intro hh; injection hh with h1 _; exact h h1)
  | .mk _ none, .mk _ (some _) =>
    .isFalse (by intro hh; injection hh with _ h2; cases h2)
  | .mk _ (some _), .mk _ none =>
    .isFalse (by intro hh; injection hh with _ h2; cases h2)

instance : DecidableEq App := App.decEq

def App.parent : App → Option App
  | .mk _ p => p

def App.id : App → Nat
  | .mk i _ => i

/-- URL parameters: a Python dict from name to list-of-values is flattened
here to name/value pairs, which is all the linking code distinguishes. -/
abbrev Params := Assoc String String

/-- `follow_defers` from `morepath/request.py` (lines 340-365), generic over
the app representation `α` and the thing being found `β`.

The Python `while` loop is rendered with an explicit `fuel` argument; the
outer `Option` is `none` exactly when the fuel runs out, which
`follow_defers_terminates` below shows cannot happen for any walk over a
finite app population.  The inner value is `.error` for the raised
`LinkError("Circular defer ...")`, `.ok (some (r, a))` when `find` succeeds
in app `a`, and `.ok none` when the defer chain runs out (`return None, app`
with `app` being `None`). -/
def followDefers {α β : Type} [DecidableEq α] (find : α → Option β) (defers : α → Option α) :
    Nat → List α → Option α → Option (Except String (Option (β × α)))
  | _, _, none => some (.ok none)
  | 0, _, some _ => none
  | fuel + 1, seen, some app =>
    if app ∈ seen then some (.error "Circular defer. Cannot link to object")
    else
      match find app with
      | some result => some (.ok (some (result, app)))
      | none => followDefers find defers fuel (app :: seen) (defers app)

/-- The registry-supplied generic functions that `Request.link` consults,
specialised to one concrete configuration ("world"):

* `modelPath a o` — `generic.path(obj, lookup=app.lookup)` for model `o`
  looked up in app `a`;
* `mountPath a c` — `generic.path(obj, lookup=app.lookup)` where `obj` is
  the child app/mount `c` and `a` is its parent;
* `defers a o` — `generic.deferred_link_app(app, obj, lookup=app.lookup)`. -/
structure LinkWorld where
  modelPath : App → Nat → Option (String × Params)
  mountPath : App → App → Option (String × Params)
  defers : App → Nat → Option App

/-- The ancestor walk of `mounted_link` (`morepath/request.py` lines 404-429):
starting from `app`, repeatedly ask the parent for the child's path fragment,
collecting `(fragment, params)` pairs in the leaf-to-root order in which the
Python loop appends them.  `none` as soon as one level has no path. -/
def ancestorLevels (w : LinkWorld) : App → Option (List (String × Params))
  | App.mk _ none => some []
  | App.mk i (some p) =>
    match w.mountPath p (App.mk i (some p)), ancestorLevels w p with
    | some (s, ps), some rest => some ((s, ps) :: rest)
    | _, _ => none

/-- `mounted_link(path, parameters, app)` from `morepath/request.py`
(lines 404-429): `result = [path]`, append each ancestor fragment,
`parameters.update(params)` per level, then
`'/'.join(reversed(result)).strip('/')`. -/
def mounted_link (w : LinkWorld) (path : String) (parameters : Params) (app : App) :
    Option (String × Params) :=
  match ancestorLevels w app with
  | none => none
  | some levels =>
    some (stripSlashes (String.intercalate "/" ((path :: levels.map Prod.fst).reverse)),
      (levels.map Prod.snd).foldl dictUpdate parameters)

/-- The module-level `link(obj, app)` from `morepath/request.py`
(lines 368-382). -/
def link (w : LinkWorld) (obj : Nat) (app : App) : Option (String × Params) :=
  match w.modelPath app obj with
  | none => none
  | some (path, parameters) => mounted_link w path parameters app

/-- `Request.link` (`morepath/request.py` lines 147-191) up to the point where
the `(path, parameters)` info is handed to `_encode_link`: run
`follow_defers(find, app, obj)` with `find = lambda app, obj: link(obj, app)`
and raise `LinkError("Cannot link to: ...")` when it yields no info.
`.error` models the raised `LinkError`; the outer `Option` is fuel exhaustion
of the defer walk. -/
def requestLink (w : LinkWorld) (fuel : Nat) (reqApp : App) (obj : Nat) :
    Option (Except String (String × Params)) :=
  match followDefers (fun a => link w obj a) (fun a => w.defers a obj) fuel [] (some reqApp) with
  | none => none
  | some (.error e) => some (.error e)
  | some (.ok none) => some (.error "Cannot link to object")
  | some (.ok (some (info, _))) => some (.ok info)

/-! ### Theorems for mounted linking (claim C1) -/

/-- Claim C1: for a model whose owning application sits in a mount chain (no
defer indirection configured), the `(path, parameters)` info built by
`Request.link` is the model's own path prefixed by the ancestor mount
fragments in root-to-leaf order, joined with `'/'` and stripped of
leading/trailing slashes, with each ancestor's URL parameters merged in; and
if the model has no path or any ancestor level yields no path, `Request.link`
raises a `LinkError`. -/
theorem link_mount_chain (w : LinkWorld) (hdef : ∀ a o, w.defers a o = none)
    (app : App) (obj : Nat) :
    (∀ own ownParams levels,
      w.modelPath app obj = some (own, ownParams) →
      ancestorLevels w app = some levels →
      requestLink w 1 app obj =
        some (.ok (stripSlashes
            (String.intercalate "/" ((levels.map Prod.fst).reverse ++ [own])),
          (levels.map Prod.snd).foldl dictUpdate ownParams)))
    ∧ ((w.modelPath app obj = none ∨ ancestorLevels w app = none) →
      ∃ e, requestLink w 1 app obj = some (.error e)) := by
  constructor
  · intro own ownParams levels h1 h2
    have hml : mounted_link w own ownParams app =
        some (stripSlashes
            (String.intercalate "/" ((levels.map Prod.fst).reverse ++ [own])),
          (levels.map Prod.snd).foldl dictUpdate ownParams) := by
      unfold mounted_link
      rw [h2]
      simp
    have hlink : link w obj app = some
        (stripSlashes
            (String.intercalate "/" ((levels.map Prod.fst).reverse ++ [own])),
          (levels.map Prod.snd).foldl dictUpdate ownParams) := by
      unfold link
      rw [h1]
      exact hml
    have hfd : followDefers (fun a => link w obj a) (fun a => w.defers a obj)
        1 [] (some app) =
        some (.ok (some ((stripSlashes
            (String.intercalate "/" ((levels.map Prod.fst).reverse ++ [own])),
          (levels.map Prod.snd).foldl dictUpdate ownParams), app))) := by
      unfold followDefers
      simp [hlink]
    unfold requestLink
    rw [hfd]
  · intro h
    have hlink : link w obj app = none := by
      unfold link
      rcases h with h | h
      · rw [h]
      · cases hm : w.modelPath app obj with
        | none => rfl
        | some pp =>
          obtain ⟨p, ps⟩ := pp
          simp [mounted_link, h]
    have hfd : followDefers (fun a => link w obj a) (fun a => w.defers a obj)
        1 [] (some app) = some (.ok none) := by
      unfold followDefers
      simp [hlink, hdef]
      rfl
    unfold requestLink
    rw [hfd]
    exact ⟨_, rfl⟩

/-- Witness for C1: the spec scenario — app `Inner` (id 1) mounted under the
root at fragment `inner`, a model (id 5) at local path `foo` inside `Inner`
links to `inner/foo`. -/
theorem link_mount_chain_witness :
    requestLink
      { modelPath := fun a o =>
          if a = App.mk 1 (some (App.mk 0 none)) ∧ o = 5
          then some ("foo", []) else none
        mountPath := fun a c =>
          if a = App.mk 0 none ∧ c = App.mk 1 (some (App.mk 0 none))
          then some ("inner", []) else none
        defers := fun _ _ => none }
      1 (App.mk 1 (some (App.mk 0 none))) 5 = some (.ok ("inner/foo", [])) := by
  have h := (link_mount_chain
      { modelPath := fun a o =>
          if a = App.mk 1 (some (App.mk 0 none)) ∧ o = 5
          then some ("foo", []) else none
        mountPath := fun a c =>
          if a = App.mk 0 none ∧ c = App.mk 1 (some (App.mk 0 none))
          then some ("inner", []) else none
        defers := fun _ _ => none }
      (fun _ _ => rfl)
      (App.mk 1 (some (App.mk 0 none))) 5).1 "foo" [] [("inner", [])] rfl rfl
  exact h.trans (by rfl)

/-! ### Theorems for defer-walk termination (claim C2) -/

theorem followDefers_fuel_sufficient {β : Type} (N : Nat) (find : Nat → Option β)
    (defers : Nat → Option Nat) (hdef : ∀ a b, defers a = some b → b < N) :
    ∀ (fuel : Nat) (seen : List Nat) (app : Nat), app < N → seen.Nodup →
      (∀ x ∈ seen, x < N) → N + 1 ≤ fuel + seen.length →
      (followDefers find defers fuel seen (some app)).isSome := by
  intro fuel
  induction fuel with
  | zero =>
    intro seen app happ hnd hmem hfuel
    exfalso
    have h1 : seen.toFinset.card = seen.length := List.toFinset_card_of_nodup hnd
    have h2 : seen.toFinset ⊆ Finset.range N := by
      intro x hx
      rw [Finset.mem_range]
      exact hmem x (List.mem_toFinset.mp hx)
    have h3 := Finset.card_le_card h2
    rw [Finset.card_range, h1] at h3
    omega
  | succ fuel ih =>
    intro seen app happ hnd hmem hfuel
    unfold followDefers
    by_cases hc : app ∈ seen
    · simp [hc]
    · simp only [hc, if_false]
      cases hfind : find app with
      | some r => simp
      | none =>
        simp only []
        cases hd : defers app with
        | none =>
          unfold followDefers
          simp
        | some b =>
          apply ih (app :: seen) b (hdef _ _ hd)
          · exact List.nodup_cons.mpr ⟨hc, hnd⟩
          · intro x hx
            rcases List.mem_cons.mp hx with h | h
            · omega
            · exact hmem x h
          · simp only [List.length_cons]
            omega

/-- Claim C2: a defer walk over a finite app population (ids below `N`,
deferred apps staying below `N`) always terminates: with fuel `N + 1` the
loop never runs out of fuel (it ends in a found result, a not-found result,
or the circular-defer `LinkError`); and as soon as an already-visited app
would be visited again, the circular-defer `LinkError` is raised. -/
theorem follow_defers_terminates {β : Type} (N : Nat) (find : Nat → Option β)
    (defers : Nat → Option Nat) (app : Nat) (happ : app < N)
    (hdef : ∀ a b, defers a = some b → b < N) :
    (followDefers find defers (N + 1) [] (some app)).isSome ∧
    (∀ (fuel : Nat) (seen : List Nat) (a : Nat), a ∈ seen →
      followDefers find defers (fuel + 1) seen (some a) =
        some (.error "Circular defer. Cannot link to object")) := by
  constructor
  · exact followDefers_fuel_sufficient N find defers hdef (N + 1) [] app happ
      List.nodup_nil (by intro x hx; cases hx) (by simp)
  · intro fuel seen a ha
    unfold followDefers
    simp [ha]

/-- Witness for C2: the two-app cycle `0 defers to 1 defers to 0` with no
find results terminates (in fact with the circular-defer error). -/
theorem follow_defers_terminates_witness :
    (followDefers (fun _ => (none : Option Nat))
      (fun a => if a = 0 then some 1 else if a = 1 then some 0 else none)
      3 [] (some 0)).isSome ∧
    followDefers (fun _ => (none : Option Nat))
      (fun a => if a = 0 then some 1 else if a = 1 then some 0 else none)
      3 [] (some 0) =
      some (.error "Circular defer. Cannot link to object") := by
  refine ⟨(follow_defers_terminates 2 (fun _ => (none : Option Nat))
    (fun a => if a = 0 then some 1 else if a = 1 then some 0 else none)
    0 (by omega) ?_).1, by rfl⟩
  intro a b h
  by_cases h0 : a = 0
  · simp [h0] at h
    omega
  · by_cases h1 : a = 1
    · simp [h0, h1] at h
      omega
    · simp [h0, h1] at h

/-! ### Views and the response pipeline (`morepath/core.py`, `morepath/request.py`)

Apps are identified by `Nat` ids here (the mount chain plays no role in view
dispatch); `lookupOf` maps an app id to the id of its lookup table
(`app.lookup`).  Model objects and response payloads are `Nat` ids.  A view
function takes the model and the request state and either returns content
together with the request state it leaves behind, or raises (`.error`),
carrying the request state at the moment of the raise (a Python exception
leaves earlier mutations of the request in place). -/

/-- The mutable fields of `morepath.Request` that the view machinery touches:
`app`, `lookup`, and the `_after` callback list used by `run_after`. -/
structure ViewReq where
  app : Nat
  lookup : Nat
  afters : List (Nat → Nat)

/-- What a view body returns: plain content to be rendered, or a full
`webob` response the view takes control of. -/
inductive Content where
  | plain : Nat → Content
  | response : Nat → Content

/-- A registered `morepath.view.View` object: the `internal` and
`permission` registrations, the wrapped view function, and the optional
renderer (`view.render`). -/
structure MView (E : Type) where
  internal : Bool
  permission : Option Nat
  func : Nat → ViewReq → Except (E × ViewReq) (Content × ViewReq)
  render : Option (Nat → Nat)

/-- What `generic.view.component(request, obj, lookup=...)` returns: the
registered `View` instance, or one of the predicate fallback functions of
`morepath/core.py` (`obj_not_found` and `name_not_found` return `None`;
`method_not_allowed` raises `HTTPMethodNotAllowed`). -/
inductive ComponentResult (E : Type) where
  | view : MView E → ComponentResult E
  | fallbackNone : ComponentResult E
  | fallbackMethodNotAllowed : ComponentResult E

/-- Exceptions escaping `get_response`: `HTTPForbidden`,
`HTTPMethodNotAllowed`, or an exception raised by the view body itself. -/
inductive PipeErr (E : Type) where
  | forbidden : PipeErr E
  | methodNotAllowed : PipeErr E
  | raised : E → PipeErr E

/-- `get_response(request, obj)` from `morepath/core.py` (lines 101-126):
the non-`View` fallback callables are invoked first; a `None`-or-internal
view yields `None` (which triggers `NotFound` later in the system); then the
permission gate (`HTTPForbidden`), then the view body, then the
`BaseResponse` shortcut, rendering, and `request.run_after(response)`. -/
def get_response {E : Type} (permits : Nat → Nat → Nat → Bool) (identity : Nat)
    (component : ComponentResult E) (req : ViewReq) (obj : Nat) :
    Except (PipeErr E) (Option Nat) :=
  match component with
  | .fallbackNone => .ok none
  | .fallbackMethodNotAllowed => .error .methodNotAllowed
  | .view view =>
    if view.internal then .ok none
    else if view.permission.elim false (fun p => ! permits identity obj p) then
      .error .forbidden
    else
      match view.func obj req with
      | .error (e, _) => .error (.raised e)
      | .ok (content, req2) =>
        match content with
        | .response r => .ok (some r)
        | .plain c =>
          let response := match view.render with
            | some render => render c
            | none => c
          .ok (some (req2.afters.foldl (fun r f => f r) response))

/-- Outcome of `Request.view`: a raised `LinkError`, an exception escaping
the view body (with the request state it leaves behind), or a returned value
(with the final request state). -/
inductive RVResult (E : Type) where
  | linkError : String → RVResult E
  | raised : E → ViewReq → RVResult E
  | okRes : Option Content → ViewReq → RVResult E

/-- The `app=` argument of `Request.view`: the `SAME_APP` sentinel, an
explicit app, or `None`. -/
inductive AppArg where
  | same : AppArg
  | explicitApp : Nat → AppArg
  | null : AppArg

/-- `Request.view(obj, default, app, **predicates)` from
`morepath/request.py` (lines 102-145): raise on `app=None`, run
`follow_defers` with the `component_key_dict` find function, return `default`
when no view is found; otherwise save `self.app`/`self.lookup`, switch to the
found app, call `view.func(obj, self)`, and write the saved values back.
The write-back statements execute only on the normal return path — the
source has no `try`/`finally` — so on `.error` the switched state is kept,
exactly as in the code. -/
def requestView {E : Type} (lookupOf : Nat → Nat) (fuel : Nat)
    (defers : Nat → Option Nat) (find : Nat → Nat → Option (MView E))
    (obj : Nat) (default : Option Content) (appArg : AppArg) (req : ViewReq) :
    Option (RVResult E) :=
  match appArg with
  | .null => some (.linkError "Cannot view: app is None")
  | _ =>
    let app := match appArg with
      | .same => req.app
      | .explicitApp a => a
      | .null => req.app
    match followDefers (fun a => find a obj) defers fuel [] (some app) with
    | none => none
    | some (.error e) => some (.linkError e)
    | some (.ok none) => some (.okRes default req)
    | some (.ok (some (view, app2))) =>
      let old_app := req.app
      let old_lookup := req.lookup
      let req1 : ViewReq := { req with app := app2, lookup := lookupOf app2 }
      match view.func obj req1 with
      | .error (e, req2) => some (.raised e req2)
      | .ok (content, req2) =>
        some (.okRes (some content) { req2 with app := old_app, lookup := old_lookup })

/-! ### Theorem for claim C3 (code evidence) -/

/-- Claim C3 (evidence that the code violates it): `Request.view` does NOT
restore `request.app` and `request.lookup` when the view function found in a
different application via defer raises.  With app `0` deferring to app `1`
(whose lookup is `10`) and the view in app `1` raising, the exception
propagates with the request still switched to app `1` / lookup `10` instead
of the prior app `0` / lookup `0`. -/
theorem requestView_state_not_restored_on_raise :
    requestView (E := Unit) (fun a => a * 10) 3
      (fun a => if a = 0 then some 1 else none)
      (fun a _ => if a = 1 then
          some { internal := false, permission := none,
                 func := fun _ r => .error ((), r), render := none }
        else none)
      42 none .same { app := 0, lookup := 0, afters := [] } =
      some (.raised () { app := 1, lookup := 10, afters := [] }) ∧
    ({ app := 0, lookup := 0, afters := [] } : ViewReq).app ≠ 1 ∧
    ({ app := 0, lookup := 0, afters := [] } : ViewReq).lookup ≠ 10 := by
  exact ⟨rfl, by decide, by decide⟩

/-! ### Theorem for claim C4 -/

/-- Claim C4: when the resolved view declares a required permission and the
permission check for (identity, model, permission) denies it, `get_response`
raises `HTTPForbidden`, and the view's handler body is never executed — the
forbidden outcome is produced for every possible handler `f`. -/
theorem get_response_forbidden_blocks_handler {E : Type}
    (permits : Nat → Nat → Nat → Bool) (identity : Nat) (v : MView E)
    (p : Nat) (req : ViewReq) (obj : Nat)
    (hint : v.internal = false) (hperm : v.permission = some p)
    (hdeny : permits identity obj p = false) :
    ∀ (f : Nat → ViewReq → Except (E × ViewReq) (Content × ViewReq)),
      get_response permits identity
        (.view { v with func := f }) req obj = .error .forbidden := by
  intro f
  unfold get_response
  simp [hint, hperm, hdeny]

/-- Witness for C4: a concrete denied view; the handler body (returning
content `99`) never runs and the outcome is `HTTPForbidden`. -/
theorem get_response_forbidden_blocks_handler_witness :
    get_response (E := Unit) (fun _ _ _ => false) 0
      (.view { internal := false, permission := some 7,
               func := fun _ r => .ok (.plain 99, r), render := none })
      { app := 0, lookup := 0, afters := [] } 1 = .error .forbidden := by
  exact get_response_forbidden_blocks_handler (fun _ _ _ => false) 0
    { internal := false, permission := some 7,
      func := fun _ r => .ok (.plain 99, r), render := none }
    7 { app := 0, lookup := 0, afters := [] } 1 rfl rfl rfl
    (fun _ r => .ok (.plain 99, r))

/-! ### Theorem for claim C6 -/

/-- Claim C6: an `internal` view resolved through the external response
pipeline produces exactly the outcome of an unregistered view name —
`get_response` yields the not-found value `None` for every handler body,
the same as the `name_not_found` fallback — while an in-request
`Request.view` call reaches the internal view by name and returns its
result (with app and lookup restored afterwards on this normal path). -/
theorem internal_view_external_notfound_internal_reachable {E : Type}
    (permits : Nat → Nat → Nat → Bool) (identity : Nat) (v : MView E)
    (a l : Nat) (afts : List (Nat → Nat)) (obj : Nat) (lookupOf : Nat → Nat)
    (content : Content) (req2 : ViewReq)
    (hint : v.internal = true)
    (hfunc : v.func obj { app := a, lookup := lookupOf a, afters := afts } =
      .ok (content, req2)) :
    (∀ (f : Nat → ViewReq → Except (E × ViewReq) (Content × ViewReq)),
      get_response permits identity (.view { v with func := f })
        { app := a, lookup := l, afters := afts } obj = .ok none) ∧
    get_response (E := E) permits identity .fallbackNone
      { app := a, lookup := l, afters := afts } obj = .ok none ∧
    (∀ (f : Nat → ViewReq → Except (E × ViewReq) (Content × ViewReq)),
      get_response permits identity (.view { v with func := f })
          { app := a, lookup := l, afters := afts } obj =
        get_response (E := E) permits identity .fallbackNone
          { app := a, lookup := l, afters := afts } obj) ∧
    requestView lookupOf 1 (fun _ => none) (fun _ _ => some v) obj none .same
        { app := a, lookup := l, afters := afts } =
      some (.okRes (some content) { req2 with app := a, lookup := l }) := by
  refine ⟨?_, rfl, ?_, ?_⟩
  · intro f
    unfold get_response
    simp [hint]
  · intro f
    unfold get_response
    simp [hint]
  · unfold requestView followDefers
    simp [hfunc]

/-- Witness for C6: a concrete internal view (body returns its model id plus
one) is invisible externally but reachable through `Request.view`. -/
theorem internal_view_external_notfound_internal_reachable_witness :
    get_response (E := Unit) (fun _ _ _ => true) 0
      (.view { internal := true, permission := none,
               func := fun o r => .ok (.plain (o + 1), r), render := none })
      { app := 2, lookup := 9, afters := [] } 4 = .ok none ∧
    get_response (E := Unit) (fun _ _ _ => true) 0 .fallbackNone
      { app := 2, lookup := 9, afters := [] } 4 = .ok none ∧
    requestView (E := Unit) (fun a => a + 5) 1 (fun _ => none)
      (fun _ _ => some { internal := true, permission := none,
                         func := fun o r => .ok (.plain (o + 1), r), render := none })
      4 none .same { app := 2, lookup := 9, afters := [] } =
      some (.okRes (some (.plain 5)) { app := 2, lookup := 9, afters := [] }) := by
  obtain ⟨h1, h2, _, h4⟩ := internal_view_external_notfound_internal_reachable
    (E := Unit) (fun _ _ _ => true) 0
    { internal := true, permission := none,
      func := fun o r => .ok (.plain (o + 1), r), render := none }
    2 9 [] 4 (fun a => a + 5) (.plain 5) { app := 2, lookup := 7, afters := [] }
    rfl rfl
  exact ⟨h1 (fun o r => .ok (.plain (o + 1), r)), h2, h4⟩

/-! ### Multi-axis view dispatch (claim C5)

Modelled from the spec: the dispatch engine itself lives in the external
`reg` library and is not among the repository sources; only the predicate
declarations and their fallbacks (`morepath/core.py` lines 134-165) are.
Per spec §4.3 the resolver works over the fixed axis order model → name →
request_method; the `model` axis uses the class-hierarchy index (nearest
registered ancestor wins, the method resolution order being given here as
`mro`, the class itself first); `name` and `request_method` are exact-key
axes; an axis with no surviving registration invokes the fallbacks
registered in `morepath/core.py`: `obj_not_found` and `name_not_found`
return `None` (not-found), `method_not_allowed` raises
`HTTPMethodNotAllowed`. -/

/-- One view registration keyed by the three predicate values. -/
structure ViewReg where
  model : Nat
  name : String
  method : String
  handler : Nat

/-- Outcome of dispatch resolution. -/
inductive DispatchOutcome where
  | notFound : DispatchOutcome
  | methodNotAllowed : DispatchOutcome
  | handler : Nat → DispatchOutcome
deriving DecidableEq

/-- Modelled from the spec: resolve the axes in the fixed order model →
name → request_method with each axis's typed fallback. -/
def resolveView (regs : List ViewReg) (mro : List Nat) (name method : String) :
    DispatchOutcome :=
  match mro.find? (fun a => regs.any (fun r => r.model == a)) with
  | none => .notFound
  | some a =>
    match (regs.filter (fun r => r.model == a)).filter (fun r => r.name == name) with
    | [] => .notFound
    | r1 :: rest =>
      match (r1 :: rest).filter (fun r => r.method == method) with
      | [] => .methodNotAllowed
      | r :: _ => .handler r.handler

/-- Claim C5: dispatch resolves the axes in the fixed order model → name →
request_method with a typed fallback per axis: no registered ancestor of the
model class → not-found; a registered model class but unregistered view
name → not-found (not method-not-allowed); a registered (model, name) pair
with the wrong request method → `HTTPMethodNotAllowed`. -/
theorem dispatch_axis_fallbacks (regs : List ViewReg) (mro : List Nat)
    (name method : String) :
    ((∀ a ∈ mro, ∀ r ∈ regs, r.model ≠ a) →
      resolveView regs mro name method = .notFound) ∧
    (∀ a, mro.find? (fun b => regs.any (fun r => r.model == b)) = some a →
      ((regs.filter (fun r => r.model == a)).filter (fun r => r.name == name) = [] →
        resolveView regs mro name method = .notFound) ∧
      (∀ r1 rest,
        (regs.filter (fun r => r.model == a)).filter (fun r => r.name == name) =
          r1 :: rest →
        (r1 :: rest).filter (fun r => r.method == method) = [] →
        resolveView regs mro name method = .methodNotAllowed)) := by
  constructor
  · intro h
    have hf : mro.find? (fun b => regs.any (fun r => r.model == b)) = none := by
      rw [List.find?_eq_none]
      intro a ha
      simp only [List.any_eq_true, beq_iff_eq]
      rintro ⟨r, hr, hbeq⟩
      exact h a ha r hr hbeq
    unfold resolveView
    rw [hf]
  · intro a hfa
    constructor
    · intro hempty
      unfold resolveView
      rw [hfa]
      dsimp only
      rw [hempty]
    · intro r1 rest hcons hempty
      unfold resolveView
      rw [hfa]
      dsimp only
      rw [hcons]
      dsimp only
      rw [hempty]

/-- Witness for C5: one registration `(model 1, name "edit", method "GET")`;
an unregistered model class (mro `[2]`) is not-found, an unregistered name
is not-found, and a wrong method is method-not-allowed. -/
theorem dispatch_axis_fallbacks_witness :
    resolveView [⟨1, "edit", "GET", 100⟩] [2] "edit" "GET" = .notFound ∧
    resolveView [⟨1, "edit", "GET", 100⟩] [1] "x" "GET" = .notFound ∧
    resolveView [⟨1, "edit", "GET", 100⟩] [1] "edit" "POST" = .methodNotAllowed := by
  refine ⟨?_, ?_, ?_⟩
  · exact (dispatch_axis_fallbacks [⟨1, "edit", "GET", 100⟩] [2] "edit" "GET").1
      (by decide)
  · exact ((dispatch_axis_fallbacks [⟨1, "edit", "GET", 100⟩] [1] "x" "GET").2
      1 rfl).1 rfl
  · exact ((dispatch_axis_fallbacks [⟨1, "edit", "GET", 100⟩] [1] "edit" "POST").2
      1 rfl).2 ⟨1, "edit", "GET", 100⟩ [] rfl rfl

/-! ### Path consumption (`traject_consume`, `morepath/core.py` lines 37-58) -/

/-- The request state touched by `traject_consume`: the unconsumed
path-segment stack and the query string (`request.GET`). -/
structure ReqState where
  unconsumed : List String
  query : Assoc String String
deriving DecidableEq

/-- A value in the `variables` dict handed to the model factory: a raw
string (path or query variable), the `parent` mount model, or the
`request` itself. -/
inductive VarVal where
  | str : String → VarVal
  | parentModel : Nat → VarVal
  | request : ReqState → VarVal
deriving DecidableEq

abbrev Vars := Assoc String VarVal

/-- The endpoint a traject match yields: a `(get_model, get_parameters)`
pair.  `get_model` is the registered model factory as invoked through
`reg.mapply` (it may return `None`, an "absence"); `get_parameters` extracts
query variables with their registered defaults. -/
structure Endpoint where
  get_model : Vars → Option Nat
  get_parameters : Assoc String String → Vars

/-- The traject object returned by `generic.traject(model)`.  Its `consume`
method is defined in `morepath/traject.py` (outside the sources here) and is
treated as opaque by `traject_consume`: a function from the unconsumed stack
to `(value, stack, traject_variables)`. -/
structure TrajectT where
  consume : List String → Option Endpoint × List String × Vars

/-- The `variables` dict as built line by line in `traject_consume`:
`variables = get_parameters(request.GET)`, `variables.update(context)`,
`variables['parent'] = model`, `variables['request'] = request`,
`variables.update(traject_variables)`. -/
def consumeVars (ep : Endpoint) (ctx tvars : Vars) (model : Nat) (req : ReqState) :
    Vars :=
  dictUpdate
    (dictSet (dictSet (dictUpdate (ep.get_parameters req.query) ctx)
      "parent" (.parentModel model)) "request" (.request req))
    tvars

/-- `traject_consume(request, model, lookup)` from `morepath/core.py`
(lines 37-58).  `traject` is `generic.traject(model, lookup)`, `context`
is `generic.context(model, lookup)`, `model` is the mount model's id.
Returns the produced model (or `None`) together with the request state the
call leaves behind; `request.unconsumed = stack` executes only after
`mapply(get_model, **variables)` produced a model. -/
def traject_consume (traject : Option TrajectT) (context : Option Vars)
    (model : Nat) (req : ReqState) : Option Nat × ReqState :=
  match traject with
  | none => (none, req)
  | some t =>
    let result := t.consume req.unconsumed
    let value := result.1
    let stack := result.2.1
    let traject_variables := result.2.2
    match value with
    | none => (none, req)
    | some ep =>
      match context with
      | none => (none, req)
      | some ctx =>
        match ep.get_model (consumeVars ep ctx traject_variables model req) with
        | none => (none, req)
        | some next_model => (some next_model, { req with unconsumed := stack })

/-- Claim C7: when the trie matches (`consume` yields an endpoint) and a
mount context exists but the invoked model factory returns no model,
`traject_consume` behaves exactly like a non-match: it returns `None` (and
leaves the request untouched). -/
theorem traject_consume_factory_none (t : TrajectT) (ctx : Vars) (model : Nat)
    (req : ReqState) (ep : Endpoint) (stack : List String) (tvars : Vars)
    (hcons : t.consume req.unconsumed = (some ep, stack, tvars))
    (hfact : ep.get_model (consumeVars ep ctx tvars model req) = none) :
    traject_consume (some t) (some ctx) model req = (none, req) := by
  unfold traject_consume
  dsimp only
  rw [hcons]
  dsimp only
  rw [hfact]

/-- Witness for C7: a concrete matching route whose factory answers `None`. -/
theorem traject_consume_factory_none_witness :
    traject_consume
      (some ⟨fun _ => (some ⟨fun _ => none, fun _ => []⟩, ["rest"], [])⟩)
      (some []) 0 ⟨["a"], []⟩ = (none, ⟨["a"], []⟩) := by
  exact traject_consume_factory_none
    ⟨fun _ => (some ⟨fun _ => none, fun _ => []⟩, ["rest"], [])⟩
    [] 0 ⟨["a"], []⟩ ⟨fun _ => none, fun _ => []⟩ ["rest"] [] rfl rfl

/-- Claim C10: path consumption is atomic for `request.unconsumed`: on every
failure path (`None` result) the request state is exactly the input state,
and when a model is produced the state differs only in `unconsumed`, which
becomes the remaining stack returned by `consume`. -/
theorem traject_consume_atomic (traject : Option TrajectT) (context : Option Vars)
    (model : Nat) (req : ReqState) :
    ((traject_consume traject context model req).1 = none →
      (traject_consume traject context model req).2 = req) ∧
    (∀ t ep stack tvars ctx,
      traject = some t → context = some ctx →
      t.consume req.unconsumed = (some ep, stack, tvars) →
      ∀ m, ep.get_model (consumeVars ep ctx tvars model req) = some m →
      traject_consume traject context model req =
        (some m, { req with unconsumed := stack })) := by
  constructor
  · cases traject with
    | none => intro _; rfl
    | some t =>
      rcases hc : t.consume req.unconsumed with ⟨value, stack, tvars⟩
      cases value with
      | none =>
        intro _
        unfold traject_consume
        dsimp only
        rw [hc]
      | some ep =>
        cases context with
        | none =>
          intro _
          unfold traject_consume
          dsimp only
          rw [hc]
        | some ctx =>
          cases hg : ep.get_model (consumeVars ep ctx tvars model req) with
          | none =>
            intro _
            unfold traject_consume
            dsimp only
            rw [hc]
            dsimp only
            rw [hg]
          | some m =>
            intro hnone
            exfalso
            unfold traject_consume at hnone
            dsimp only at hnone
            rw [hc] at hnone
            dsimp only at hnone
            rw [hg] at hnone
            exact Option.noConfusion hnone
  · intro t ep stack tvars ctx ht hctx hcons m hm
    subst ht
    subst hctx
    unfold traject_consume
    dsimp only
    rw [hcons]
    dsimp only
    rw [hm]

/-- Witness for C10: on a failure path (no traject registered) the request
is untouched; on a success path `unconsumed` becomes the remaining stack. -/
theorem traject_consume_atomic_witness :
    (traject_consume none none 0 ⟨["a"], []⟩).2 = ⟨["a"], []⟩ ∧
    traject_consume
      (some ⟨fun _ => (some ⟨fun _ => some 9, fun _ => []⟩, ["rest"], [])⟩)
      (some []) 0 ⟨["a"], []⟩ = (some 9, ⟨["rest"], []⟩) := by
  constructor
  · exact (traject_consume_atomic none none 0 ⟨["a"], []⟩).1 rfl
  · exact (traject_consume_atomic _ _ 0 ⟨["a"], []⟩).2
      ⟨fun _ => (some ⟨fun _ => some 9, fun _ => []⟩, ["rest"], [])⟩
      ⟨fun _ => some 9, fun _ => []⟩ ["rest"] [] [] rfl rfl rfl 9 rfl

/-! ### Built-in converters (`morepath/core.py` lines 168-209)

`int_converter` is `Converter(int)`, `unicode_converter` is
`IDENTITY_CONVERTER`, and the date/datetime converters use
`strftime`/`strptime` with the formats `%Y%m%d` and `%Y%m%dT%H%M%S`.
The `Converter` class and `IDENTITY_CONVERTER` live in
`morepath/converter.py`, outside the sources here; per its use sites and the
spec (§4.1), `Converter(int)` decodes with Python `int()` and encodes with
`str()`, and the identity converter passes text through unchanged.
`strftime`/`strptime` are modelled on the documented fixed-width formats:
`%Y` is the four-digit zero-padded `YYYY` of the spec's `YYYYMMDD`, and
`strptime` validates field ranges (month 1-12, day 1-31, hour 0-23,
minute 0-59, second 0-61).  `date.fromtimestamp(mktime(...))` reproduces the
parsed calendar fields; for datetimes it yields microsecond `0` because
`struct_time` carries no sub-second field. -/

/-- The decimal digit character for `d < 10`. -/
def digitChar (d : Nat) : Char := Char.ofNat (48 + d)

/-- The numeric value of a decimal digit character. -/
def charDigit (c : Char) : Nat := c.toNat - 48

/-- Value of a big-endian digit string: `int(s)` on validated digits. -/
def parseDigits (l : List Char) : Nat :=
  l.foldl (fun acc c => acc * 10 + charDigit c) 0

/-- Python `str(n)` for a natural number. -/
def natEncode (n : Nat) : List Char :=
  if n = 0 then ['0'] else (Nat.digits 10 n).reverse.map digitChar

/-- Parse a nonempty all-digit string as a natural number. -/
def natDecodeOpt (l : List Char) : Option Nat :=
  if l ≠ [] ∧ l.all Char.isDigit then some (parseDigits l) else none

/-- Python `str(v)` for an `int`. -/
def int_encode (v : Int) : String :=
  String.mk (if v < 0 then '-' :: natEncode v.natAbs else natEncode v.natAbs)

/-- Python `int(s)` on a character list: optional sign followed by decimal
digits. -/
def intDecodeList : List Char → Option Int
  | [] => none
  | c :: rest =>
    if c = '-' then (natDecodeOpt rest).map (fun n => -(Int.ofNat n))
    else if c = '+' then (natDecodeOpt rest).map (fun n => Int.ofNat n)
    else (natDecodeOpt (c :: rest)).map (fun n => Int.ofNat n)

/-- Python `int(s)` (`morepath`'s `Converter(int)` decode). -/
def int_decode (s : String) : Option Int := intDecodeList s.data

/-- Modelled from the spec: `IDENTITY_CONVERTER` (in `morepath/converter.py`,
outside the sources here) "handles text values unchanged" — encode side. -/
def text_encode (s : String) : String := s

/-- Modelled from the spec: `IDENTITY_CONVERTER` decode side. -/
def text_decode (s : String) : String := s

/-- The `w` low-order decimal digits of `n`, big-endian (zero-padded). -/
def padDigits : Nat → Nat → List Nat
  | 0, _ => []
  | w + 1, n => padDigits w (n / 10) ++ [n % 10]

/-- Fixed-width zero-padded decimal rendering, as `strftime` field output. -/
def pad (w n : Nat) : List Char := (padDigits w n).map digitChar

/-- A Python `datetime.date`: `MINYEAR = 1`, `MAXYEAR = 9999`. -/
structure PyDate where
  year : Nat
  month : Nat
  day : Nat
deriving DecidableEq

/-- The invariants `datetime.date` enforces on construction (day bound kept
at the month-independent 31 used by `strptime` validation). -/
def PyDate.valid (d : PyDate) : Prop :=
  1 ≤ d.year ∧ d.year ≤ 9999 ∧ 1 ≤ d.month ∧ d.month ≤ 12 ∧
  1 ≤ d.day ∧ d.day ≤ 31

instance (d : PyDate) : Decidable d.valid := by
  unfold PyDate.valid
  infer_instance

/-- `date_encode(d) = d.strftime('%Y%m%d')` (`morepath/core.py` 190-191). -/
def date_encode (d : PyDate) : String :=
  String.mk (pad 4 d.year ++ pad 2 d.month ++ pad 2 d.day)

/-- `date_decode(s) = date.fromtimestamp(mktime(strptime(s, '%Y%m%d')))`
(`morepath/core.py` 186-187): parse the fixed-width `%Y`, `%m`, `%d` fields
and validate their ranges; `none` models the raised `ValueError`. -/
def date_decode (s : String) : Option PyDate :=
  if s.data.length = 8 ∧ (s.data.take 4).all Char.isDigit ∧
      ((s.data.drop 4).take 2).all Char.isDigit ∧
      (s.data.drop 6).all Char.isDigit then
    if 1 ≤ parseDigits (s.data.take 4) ∧
        1 ≤ parseDigits ((s.data.drop 4).take 2) ∧
        parseDigits ((s.data.drop 4).take 2) ≤ 12 ∧
        1 ≤ parseDigits (s.data.drop 6) ∧ parseDigits (s.data.drop 6) ≤ 31 then
      some ⟨parseDigits (s.data.take 4), parseDigits ((s.data.drop 4).take 2),
        parseDigits (s.data.drop 6)⟩
    else none
  else none

/-- A Python `datetime.datetime`, microseconds included
(`0 ≤ microsecond ≤ 999999`). -/
structure PyDateTime where
  year : Nat
  month : Nat
  day : Nat
  hour : Nat
  minute : Nat
  second : Nat
  microsecond : Nat
deriving DecidableEq

/-- The invariants `datetime.datetime` enforces on construction. -/
def PyDateTime.valid (t : PyDateTime) : Prop :=
  1 ≤ t.year ∧ t.year ≤ 9999 ∧ 1 ≤ t.month ∧ t.month ≤ 12 ∧
  1 ≤ t.day ∧ t.day ≤ 31 ∧ t.hour ≤ 23 ∧ t.minute ≤ 59 ∧
  t.second ≤ 59 ∧ t.microsecond ≤ 999999

instance (t : PyDateTime) : Decidable t.valid := by
  unfold PyDateTime.valid
  infer_instance

/-- `datetime_encode(d) = d.strftime('%Y%m%dT%H%M%S')` (`morepath/core.py`
203-204); the format has no sub-second field, so microseconds are dropped. -/
def datetime_encode (t : PyDateTime) : String :=
  String.mk (pad 4 t.year ++ pad 2 t.month ++ pad 2 t.day ++
    'T' :: (pad 2 t.hour ++ pad 2 t.minute ++ pad 2 t.second))

/-- `datetime_decode(s) = datetime.fromtimestamp(mktime(strptime(s,
'%Y%m%dT%H%M%S')))` (`morepath/core.py` 199-200): parse the fixed-width
fields around the literal `T` and validate their ranges (`%S` accepts leap
seconds up to 61).  The parsed `struct_time` has whole-second resolution, so
the result always has microsecond `0`. -/
def datetime_decode (s : String) : Option PyDateTime :=
  if s.data.length = 15 ∧ (s.data.take 4).all Char.isDigit ∧
      ((s.data.drop 4).take 2).all Char.isDigit ∧
      ((s.data.drop 6).take 2).all Char.isDigit ∧
      (s.data.drop 8).take 1 = ['T'] ∧
      ((s.data.drop 9).take 2).all Char.isDigit ∧
      ((s.data.drop 11).take 2).all Char.isDigit ∧
      (s.data.drop 13).all Char.isDigit then
    if 1 ≤ parseDigits (s.data.take 4) ∧
        1 ≤ parseDigits ((s.data.drop 4).take 2) ∧
        parseDigits ((s.data.drop 4).take 2) ≤ 12 ∧
        1 ≤ parseDigits ((s.data.drop 6).take 2) ∧
        parseDigits ((s.data.drop 6).take 2) ≤ 31 ∧
        parseDigits ((s.data.drop 9).take 2) ≤ 23 ∧
        parseDigits ((s.data.drop 11).take 2) ≤ 59 ∧
        parseDigits (s.data.drop 13) ≤ 61 then
      some ⟨parseDigits (s.data.take 4), parseDigits ((s.data.drop 4).take 2),
        parseDigits ((s.data.drop 6).take 2), parseDigits ((s.data.drop 9).take 2),
        parseDigits ((s.data.drop 11).take 2), parseDigits (s.data.drop 13), 0⟩
    else none
  else none

/-! ### Round-trip lemmas for the converters (claim C8) -/

theorem charDigit_digitChar : ∀ d, d < 10 → charDigit (digitChar d) = d := by decide

theorem digitChar_isDigit : ∀ d, d < 10 → (digitChar d).isDigit = true := by decide

theorem foldl_map_digitChar (ds : List Nat) (h : ∀ d ∈ ds, d < 10) (a : Nat) :
    (ds.map digitChar).foldl (fun acc c => acc * 10 + charDigit c) a =
    ds.foldl (fun acc d => acc * 10 + d) a := by
  induction ds generalizing a with
  | nil => rfl
  | cons d ds ih =>
    simp only [List.map_cons, List.foldl_cons]
    rw [charDigit_digitChar d (h d (List.mem_cons_self d ds))]
    exact ih (fun x hx => h x (List.mem_cons_of_mem d hx)) _

theorem foldl_reverse_ofDigits (L : List Nat) (a : Nat) :
    L.reverse.foldl (fun acc d => acc * 10 + d) a =
    a * 10 ^ L.length + Nat.ofDigits 10 L := by
  induction L generalizing a with
  | nil => simp [Nat.ofDigits]
  | cons d L ih =>
    simp only [List.reverse_cons, List.foldl_append, List.foldl_cons, List.foldl_nil,
      ih, Nat.ofDigits_cons, List.length_cons, pow_succ]
    ring

theorem parseDigits_natEncode (n : Nat) : parseDigits (natEncode n) = n := by
  by_cases h0 : n = 0
  · subst h0
    rfl
  · unfold natEncode
    rw [if_neg h0]
    unfold parseDigits
    rw [foldl_map_digitChar _
      (fun d hd => Nat.digits_lt_base (by norm_num) (List.mem_reverse.mp hd))]
    rw [foldl_reverse_ofDigits]
    simp [Nat.ofDigits_digits]

theorem natEncode_ne_nil (n : Nat) : natEncode n ≠ [] := by
  by_cases h0 : n = 0
  · subst h0
    decide
  · unfold natEncode
    rw [if_neg h0]
    simp [Nat.digits_ne_nil_iff_ne_zero.mpr h0]

theorem natEncode_all_digits (n : Nat) : (natEncode n).all Char.isDigit = true := by
  by_cases h0 : n = 0
  · subst h0
    decide
  · unfold natEncode
    rw [if_neg h0, List.all_eq_true]
    intro c hc
    rw [List.mem_map] at hc
    obtain ⟨d, hd, hdc⟩ := hc
    subst hdc
    exact digitChar_isDigit d (Nat.digits_lt_base (by norm_num) (List.mem_reverse.mp hd))

theorem natDecodeOpt_natEncode (n : Nat) : natDecodeOpt (natEncode n) = some n := by
  unfold natDecodeOpt
  rw [if_pos ⟨natEncode_ne_nil n, natEncode_all_digits n⟩, parseDigits_natEncode]

theorem int_roundtrip (v : Int) : int_decode (int_encode v) = some v := by
  unfold int_decode int_encode
  by_cases hv : v < 0
  · rw [if_pos hv]
    show intDecodeList ('-' :: natEncode v.natAbs) = some v
    unfold intDecodeList
    dsimp only
    rw [if_pos rfl, natDecodeOpt_natEncode]
    simp only [Option.map_some']
    congr 1
    show -((v.natAbs : Int)) = v
    omega
  · rw [if_neg hv]
    cases hE : natEncode v.natAbs with
    | nil => exact absurd hE (natEncode_ne_nil _)
    | cons c rest =>
      have hcd : c.isDigit = true := by
        have hall := natEncode_all_digits v.natAbs
        rw [hE, List.all_cons, Bool.and_eq_true] at hall
        exact hall.1
      have hc1 : c ≠ '-' := by
        intro h
        subst h
        exact absurd hcd (by decide)
      have hc2 : c ≠ '+' := by
        intro h
        subst h
        exact absurd hcd (by decide)
      show intDecodeList (c :: rest) = some v
      unfold intDecodeList
      dsimp only
      rw [if_neg hc1, if_neg hc2, ← hE, natDecodeOpt_natEncode]
      simp only [Option.map_some']
      congr 1
      show ((v.natAbs : Int)) = v
      omega

theorem padDigits_length (w : Nat) : ∀ n, (padDigits w n).length = w := by
  induction w with
  | zero => intro n; rfl
  | succ w ih => intro n; simp [padDigits, ih]

theorem padDigits_lt (w : Nat) : ∀ n, ∀ x ∈ padDigits w n, x < 10 := by
  induction w with
  | zero => intro n x hx; cases hx
  | succ w ih =>
    intro n x hx
    unfold padDigits at hx
    rcases List.mem_append.mp hx with h | h
    · exact ih _ x h
    · rw [List.mem_singleton] at h
      subst h
      exact Nat.mod_lt _ (by norm_num)

theorem pad_length (w n : Nat) : (pad w n).length = w := by
  simp [pad, padDigits_length]

theorem pad_all_digits (w n : Nat) : (pad w n).all Char.isDigit = true := by
  rw [pad, List.all_eq_true]
  intro c hc
  rw [List.mem_map] at hc
  obtain ⟨d, hd, hdc⟩ := hc
  subst hdc
  exact digitChar_isDigit d (padDigits_lt w n d hd)

theorem foldl_padDigits (w : Nat) : ∀ n a,
    (padDigits w n).foldl (fun acc d => acc * 10 + d) a = a * 10 ^ w + n % 10 ^ w := by
  induction w with
  | zero =>
    intro n a
    simp [padDigits, Nat.mod_one]
  | succ w ih =>
    intro n a
    simp only [padDigits, List.foldl_append, List.foldl_cons, List.foldl_nil, ih]
    have hm : n % 10 ^ (w + 1) = n % 10 + 10 * (n / 10 % 10 ^ w) := by
      rw [pow_succ']
      exact Nat.mod_mul
    rw [hm, pow_succ]
    ring

theorem parseDigits_pad (w n : Nat) (h : n < 10 ^ w) : parseDigits (pad w n) = n := by
  unfold parseDigits pad
  rw [foldl_map_digitChar _ (padDigits_lt w n), foldl_padDigits]
  simp [Nat.mod_eq_of_lt h]

theorem take_len_append {α : Type} (l1 l2 : List α) (n : Nat) (h : l1.length = n) :
    (l1 ++ l2).take n = l1 := by
  subst h
  exact List.take_left l1 l2

theorem drop_len_append {α : Type} (l1 l2 : List α) (n : Nat) (h : l1.length = n) :
    (l1 ++ l2).drop n = l2 := by
  subst h
  exact List.drop_left l1 l2

theorem date_roundtrip (d : PyDate) (hv : d.valid) :
    date_decode (date_encode d) = some d := by
  obtain ⟨h1, h2, h3, h4, h5, h6⟩ := hv
  unfold date_encode date_decode
  have hdata : (String.mk (pad 4 d.year ++ pad 2 d.month ++ pad 2 d.day)).data =
      pad 4 d.year ++ (pad 2 d.month ++ pad 2 d.day) := rfl
  rw [hdata]
  have ht4 : (pad 4 d.year ++ (pad 2 d.month ++ pad 2 d.day)).take 4 = pad 4 d.year :=
    take_len_append _ _ 4 (pad_length 4 _)
  have hd4 : (pad 4 d.year ++ (pad 2 d.month ++ pad 2 d.day)).drop 4 =
      pad 2 d.month ++ pad 2 d.day :=
    drop_len_append _ _ 4 (pad_length 4 _)
  have ht2 : (pad 2 d.month ++ pad 2 d.day).take 2 = pad 2 d.month :=
    take_len_append _ _ 2 (pad_length 2 _)
  have hd6 : (pad 4 d.year ++ (pad 2 d.month ++ pad 2 d.day)).drop 6 = pad 2 d.day := by
    rw [show (6 : Nat) = 4 + 2 from rfl, ← List.drop_drop, hd4]
    exact drop_len_append _ _ 2 (pad_length 2 _)
  rw [ht4, hd4, ht2, hd6]
  have hy : d.year < 10 ^ 4 := by norm_num; omega
  have hmo : d.month < 10 ^ 2 := by norm_num; omega
  have hda : d.day < 10 ^ 2 := by norm_num; omega
  rw [parseDigits_pad 4 d.year hy, parseDigits_pad 2 d.month hmo,
    parseDigits_pad 2 d.day hda]
  rw [if_pos ⟨by simp [pad_length], pad_all_digits 4 _, pad_all_digits 2 _,
      pad_all_digits 2 _⟩]
  rw [if_pos ⟨h1, h3, h4, h5, h6⟩]

theorem datetime_roundtrip (t : PyDateTime) (hv : t.valid) (hmicro : t.microsecond = 0) :
    datetime_decode (datetime_encode t) = some t := by
  obtain ⟨h1, h2, h3, h4, h5, h6, h7, h8, h9, h10⟩ := hv
  unfold datetime_encode datetime_decode
  have hdata : (String.mk (pad 4 t.year ++ pad 2 t.month ++ pad 2 t.day ++
      'T' :: (pad 2 t.hour ++ pad 2 t.minute ++ pad 2 t.second))).data =
      pad 4 t.year ++ (pad 2 t.month ++ (pad 2 t.day ++
      'T' :: (pad 2 t.hour ++ (pad 2 t.minute ++ pad 2 t.second)))) := rfl
  rw [hdata]
  have ht4 : (pad 4 t.year ++ (pad 2 t.month ++ (pad 2 t.day ++
      'T' :: (pad 2 t.hour ++ (pad 2 t.minute ++ pad 2 t.second))))).take 4 =
      pad 4 t.year :=
    take_len_append _ _ 4 (pad_length 4 _)
  have hd4 : (pad 4 t.year ++ (pad 2 t.month ++ (pad 2 t.day ++
      'T' :: (pad 2 t.hour ++ (pad 2 t.minute ++ pad 2 t.second))))).drop 4 =
      pad 2 t.month ++ (pad 2 t.day ++
        'T' :: (pad 2 t.hour ++ (pad 2 t.minute ++ pad 2 t.second))) :=
    drop_len_append _ _ 4 (pad_length 4 _)
  have ht2mo : (pad 2 t.month ++ (pad 2 t.day ++
      'T' :: (pad 2 t.hour ++ (pad 2 t.minute ++ pad 2 t.second)))).take 2 =
      pad 2 t.month :=
    take_len_append _ _ 2 (pad_length 2 _)
  have hd6 : (pad 4 t.year ++ (pad 2 t.month ++ (pad 2 t.day ++
      'T' :: (pad 2 t.hour ++ (pad 2 t.minute ++ pad 2 t.second))))).drop 6 =
      pad 2 t.day ++ 'T' :: (pad 2 t.hour ++ (pad 2 t.minute ++ pad 2 t.second)) := by
    rw [show (6 : Nat) = 4 + 2 from rfl, ← List.drop_drop, hd4]
    exact drop_len_append _ _ 2 (pad_length 2 _)
  have ht2da : (pad 2 t.day ++
      'T' :: (pad 2 t.hour ++ (pad 2 t.minute ++ pad 2 t.second))).take 2 =
      pad 2 t.day :=
    take_len_append _ _ 2 (pad_length 2 _)
  have hd8 : (pad 4 t.year ++ (pad 2 t.month ++ (pad 2 t.day ++
      'T' :: (pad 2 t.hour ++ (pad 2 t.minute ++ pad 2 t.second))))).drop 8 =
      'T' :: (pad 2 t.hour ++ (pad 2 t.minute ++ pad 2 t.second)) := by
    rw [show (8 : Nat) = 6 + 2 from rfl, ← List.drop_drop, hd6]
    exact drop_len_append _ _ 2 (pad_length 2 _)
  have hd9 : (pad 4 t.year ++ (pad 2 t.month ++ (pad 2 t.day ++
      'T' :: (pad 2 t.hour ++ (pad 2 t.minute ++ pad 2 t.second))))).drop 9 =
      pad 2 t.hour ++ (pad 2 t.minute ++ pad 2 t.second) := by
    rw [show (9 : Nat) = 8 + 1 from rfl, ← List.drop_drop, hd8]
    rfl
  have ht2h : (pad 2 t.hour ++ (pad 2 t.minute ++ pad 2 t.second)).take 2 =
      pad 2 t.hour :=
    take_len_append _ _ 2 (pad_length 2 _)
  have hd11 : (pad 4 t.year ++ (pad 2 t.month ++ (pad 2 t.day ++
      'T' :: (pad 2 t.hour ++ (pad 2 t.minute ++ pad 2 t.second))))).drop 11 =
      pad 2 t.minute ++ pad 2 t.second := by
    rw [show (11 : Nat) = 9 + 2 from rfl, ← List.drop_drop, hd9]
    exact drop_len_append _ _ 2 (pad_length 2 _)
  have ht2mi : (pad 2 t.minute ++ pad 2 t.second).take 2 = pad 2 t.minute :=
    take_len_append _ _ 2 (pad_length 2 _)
  have hd13 : (pad 4 t.year ++ (pad 2 t.month ++ (pad 2 t.day ++
      'T' :: (pad 2 t.hour ++ (pad 2 t.minute ++ pad 2 t.second))))).drop 13 =
      pad 2 t.second := by
    rw [show (13 : Nat) = 11 + 2 from rfl, ← List.drop_drop, hd11]
    exact drop_len_append _ _ 2 (pad_length 2 _)
  rw [ht4, hd4, ht2mo, hd6, ht2da, hd8, hd9, ht2h, hd11, ht2mi, hd13]
  have hy : t.year < 10 ^ 4 := by norm_num; omega
  have hmo : t.month < 10 ^ 2 := by norm_num; omega
  have hda : t.day < 10 ^ 2 := by norm_num; omega
  have hh : t.hour < 10 ^ 2 := by norm_num; omega
  have hmi : t.minute < 10 ^ 2 := by norm_num; omega
  have hs : t.second < 10 ^ 2 := by norm_num; omega
  rw [parseDigits_pad 4 t.year hy, parseDigits_pad 2 t.month hmo,
    parseDigits_pad 2 t.day hda, parseDigits_pad 2 t.hour hh,
    parseDigits_pad 2 t.minute hmi, parseDigits_pad 2 t.second hs]
  rw [if_pos ⟨by simp [pad_length], pad_all_digits 4 _, pad_all_digits 2 _,
      pad_all_digits 2 _, rfl, pad_all_digits 2 _, pad_all_digits 2 _,
      pad_all_digits 2 _⟩]
  rw [if_pos ⟨h1, h3, h4, h5, h6, h7, h8, by omega⟩]
  rw [← hmicro]

/-- Counterexample for C8 as stated: the timestamp format `%Y%m%dT%H%M%S`
carries no sub-second field, so for the valid datetime
2020-01-02 03:04:05.500000 the round trip loses the microseconds and
`decode(encode(v)) ≠ v`. -/
theorem datetime_roundtrip_fails_on_microseconds :
    datetime_decode (datetime_encode ⟨2020, 1, 2, 3, 4, 5, 500000⟩) ≠
      some ⟨2020, 1, 2, 3, 4, 5, 500000⟩ ∧
    PyDateTime.valid ⟨2020, 1, 2, 3, 4, 5, 500000⟩ := by
  constructor
  · decide
  · decide

/-- Claim C8 as amended: `decode(encode(v)) = v` holds for the integer
converter on every `int`, for the text identity converter on every string,
for the date converter on every valid `date`, and for the timestamp
converter on every valid `datetime` whose microsecond field is zero (the
`%Y%m%dT%H%M%S` format drops sub-second precision, so values with nonzero
microseconds do not round-trip). -/
theorem converters_roundtrip :
    (∀ v : Int, int_decode (int_encode v) = some v) ∧
    (∀ s : String, text_decode (text_encode s) = s) ∧
    (∀ d : PyDate, d.valid → date_decode (date_encode d) = some d) ∧
    (∀ t : PyDateTime, t.valid → t.microsecond = 0 →
      datetime_decode (datetime_encode t) = some t) :=
  ⟨int_roundtrip, fun _ => rfl, date_roundtrip, datetime_roundtrip⟩

/-- Witness for C8 (amended): concrete round trips through each converter. -/
theorem converters_roundtrip_witness :
    int_decode (int_encode (-17)) = some (-17) ∧
    text_decode (text_encode "abc") = "abc" ∧
    date_decode (date_encode ⟨1999, 12, 31⟩) = some ⟨1999, 12, 31⟩ ∧
    datetime_decode (datetime_encode ⟨2020, 1, 2, 3, 4, 5, 0⟩) =
      some ⟨2020, 1, 2, 3, 4, 5, 0⟩ :=
  ⟨converters_roundtrip.1 (-17), converters_roundtrip.2.1 "abc",
    converters_roundtrip.2.2.1 ⟨1999, 12, 31⟩ (by decide),
    converters_roundtrip.2.2.2 ⟨2020, 1, 2, 3, 4, 5, 0⟩ (by decide) rfl⟩

/-! ### Link encoding and the tilde workaround (claim C9)

`Request._encode_link` (`morepath/request.py` 244-259) quotes the path with
`quote(path.encode('utf-8'), '/~')` and encodes the parameters with
`fixed_urlencode(parameters, True)`, which is
`urlencode(parameters, doseq).replace('%7E', '~')` (lines 432-441).
`quote`, `quote_plus` and `urlencode` are Python standard-library functions,
modelled here on their documented behaviour in the pre-3.7 worst case in
which `'~'` is NOT always-safe — the very case the workaround exists for:
every byte that is not alphanumeric, `'_'`, `'.'`, `'-'` or listed in the
extra safe set is replaced by `'%'` followed by two uppercase hex digits;
`quote_plus` additionally maps space to `'+'`.  Paths and parameter values
are UTF-8 byte lists (`Nat` below 256). -/

/-- Uppercase hex digit for `n < 16`. -/
def hexDigit (n : Nat) : Char :=
  if n < 10 then Char.ofNat (48 + n) else Char.ofNat (55 + n)

/-- `urllib`'s `always_safe` bytes (letters, digits, `'_'`, `'.'`, `'-'`). -/
def alwaysSafe (b : Nat) : Bool :=
  decide ((65 ≤ b ∧ b ≤ 90) ∨ (97 ≤ b ∧ b ≤ 122) ∨ (48 ≤ b ∧ b ≤ 57) ∨
    b = 95 ∨ b = 46 ∨ b = 45)

/-- `urllib.quote` on one byte given the extra safe bytes. -/
def quoteByte (safe : List Nat) (b : Nat) : List Char :=
  if alwaysSafe b || safe.contains b then [Char.ofNat b]
  else ['%', hexDigit (b / 16), hexDigit (b % 16)]

/-- `urllib.quote(bytes, safe)`. -/
def pythonQuote (safe : List Nat) : List Nat → List Char
  | [] => []
  | b :: bs => quoteByte safe b ++ pythonQuote safe bs

/-- The safe string `'/~'` that `Request._encode_link` passes to `quote`. -/
def pathSafe : List Nat := [47, 126]

/-- `urllib.quote_plus` on one byte (no extra safe bytes). -/
def quotePlusByte (b : Nat) : List Char :=
  if b = 32 then ['+'] else quoteByte [] b

def quotePlus : List Nat → List Char
  | [] => []
  | b :: bs => quotePlusByte b ++ quotePlus bs

/-- The `key=value` pieces of `urlencode(params, doseq=True)` for one key. -/
def urlencodePairs (k : List Nat) : List (List Nat) → List (List Char)
  | [] => []
  | v :: vs => (quotePlus k ++ '=' :: quotePlus v) :: urlencodePairs k vs

def urlencodePieces : List (List Nat × List (List Nat)) → List (List Char)
  | [] => []
  | (k, vs) :: rest => urlencodePairs k vs ++ urlencodePieces rest

/-- `urlencode(params, doseq=True)`: the pieces joined with `'&'`. -/
def urlencode (params : List (List Nat × List (List Nat))) : List Char :=
  List.intercalate ['&'] (urlencodePieces params)

/-- Python `s.replace('%7E', '~')`: replace each left-to-right
non-overlapping occurrence. -/
def replacePE : List Char → List Char
  | [] => []
  | [c] => [c]
  | [c, d] => [c, d]
  | c :: d :: e :: rest =>
    if c = '%' ∧ d = '7' ∧ e = 'E' then '~' :: replacePE rest
    else c :: replacePE (d :: e :: rest)

/-- `fixed_urlencode(s, doseq)` from `morepath/request.py` (lines 432-441). -/
def fixed_urlencode (params : List (List Nat × List (List Nat))) : List Char :=
  replacePE (urlencode params)

/-- `Request._encode_link(path, name, parameters)` from `morepath/request.py`
(lines 244-259). -/
def encode_link (linkPrefix : List Char) (path : List Nat) (name : List Char)
    (parameters : List (List Nat × List (List Nat))) : List Char :=
  let parts := (if path ≠ [] then [pythonQuote pathSafe path] else []) ++
    (if name ≠ [] then [name] else [])
  let result := linkPrefix ++ '/' :: List.intercalate ['/'] parts
  if parameters ≠ [] then result ++ '?' :: fixed_urlencode parameters else result

/-- Does the list start with the two characters `7`, `E`? -/
def startsSevenE : List Char → Bool
  | [] => false
  | [_] => false
  | a :: b :: _ => a == '7' && b == 'E'

/-- Does `%7E` occur anywhere in the list? -/
def hasPE : List Char → Bool
  | [] => false
  | c :: rest => (c == '%' && startsSevenE rest) || hasPE rest

theorem hasPE_cons_ne (c : Char) (rest : List Char) (h : c ≠ '%') :
    hasPE (c :: rest) = hasPE rest := by
  show ((c == '%' && startsSevenE rest) || hasPE rest) = hasPE rest
  rw [beq_eq_false_iff_ne.mpr h]
  simp

theorem replacePE_head (a : Char) (l : List Char) :
    (∃ t, replacePE (a :: l) = a :: t) ∨ (a = '%' ∧ ∃ t, replacePE (a :: l) = '~' :: t) := by
  cases l with
  | nil => exact Or.inl ⟨[], rfl⟩
  | cons b l2 =>
    cases l2 with
    | nil => exact Or.inl ⟨[b], rfl⟩
    | cons c t =>
      by_cases h : a = '%' ∧ b = '7' ∧ c = 'E'
      · refine Or.inr ⟨h.1, replacePE t, ?_⟩
        show (if a = '%' ∧ b = '7' ∧ c = 'E' then '~' :: replacePE t
          else a :: replacePE (b :: c :: t)) = '~' :: replacePE t
        rw [if_pos h]
      · refine Or.inl ⟨replacePE (b :: c :: t), ?_⟩
        show (if a = '%' ∧ b = '7' ∧ c = 'E' then '~' :: replacePE t
          else a :: replacePE (b :: c :: t)) = a :: replacePE (b :: c :: t)
        rw [if_neg h]

theorem hasPE_replacePE_aux : ∀ (n : Nat) (l : List Char), l.length ≤ n →
    hasPE (replacePE l) = false := by
  intro n
  induction n with
  | zero =>
    intro l hl
    rw [List.eq_nil_of_length_eq_zero (Nat.le_zero.mp hl)]
    rfl
  | succ n ih =>
    intro l hl
    cases l with
    | nil => rfl
    | cons c l1 =>
      cases l1 with
      | nil => simp [replacePE, hasPE, startsSevenE]
      | cons d l2 =>
        cases l2 with
        | nil => simp [replacePE, hasPE, startsSevenE]
        | cons e rest =>
          have hstep : replacePE (c :: d :: e :: rest) =
              (if c = '%' ∧ d = '7' ∧ e = 'E' then '~' :: replacePE rest
                else c :: replacePE (d :: e :: rest)) := rfl
          by_cases h : c = '%' ∧ d = '7' ∧ e = 'E'
          · rw [hstep, if_pos h, hasPE_cons_ne '~' _ (by decide)]
            exact ih rest (by simp at hl; omega)
          · rw [hstep, if_neg h]
            have hX : hasPE (replacePE (d :: e :: rest)) = false :=
              ih _ (by simp at hl ⊢; omega)
            by_cases hc : c = '%'
            · subst hc
              have hde : ¬(d = '7' ∧ e = 'E') := fun hh => h ⟨rfl, hh.1, hh.2⟩
              have hs : startsSevenE (replacePE (d :: e :: rest)) = false := by
                by_cases hd7 : d = '7'
                · subst hd7
                  have he : e ≠ 'E' := fun hh => hde ⟨rfl, hh⟩
                  have h7 : replacePE ('7' :: e :: rest) = '7' :: replacePE (e :: rest) := by
                    cases rest with
                    | nil => rfl
                    | cons r rest2 =>
                      show (if ('7' : Char) = '%' ∧ e = '7' ∧ r = 'E'
                          then '~' :: replacePE rest2
                          else '7' :: replacePE (e :: r :: rest2)) =
                        '7' :: replacePE (e :: r :: rest2)
                      rw [if_neg (fun hh => absurd hh.1 (by decide))]
                  rw [h7]
                  rcases replacePE_head e rest with ⟨t, ht⟩ | ⟨_, t, ht⟩
                  · rw [ht]
                    simp [startsSevenE, he]
                  · rw [ht]
                    simp [startsSevenE]
                · rcases replacePE_head d (e :: rest) with ⟨t, ht⟩ | ⟨_, t, ht⟩
                  · rw [ht]
                    cases t with
                    | nil => rfl
                    | cons x xs => simp [startsSevenE, hd7]
                  · rw [ht]
                    cases t with
                    | nil => rfl
                    | cons x xs => simp [startsSevenE]
              show ((('%' : Char) == '%' && startsSevenE (replacePE (d :: e :: rest))) ||
                hasPE (replacePE (d :: e :: rest))) = false
              rw [hs, hX]
              rfl
            · rw [hasPE_cons_ne c _ hc]
              exact hX

theorem hasPE_replacePE (l : List Char) : hasPE (replacePE l) = false :=
  hasPE_replacePE_aux l.length l le_rfl

theorem hexDigit_ne_percent : ∀ n, n < 16 → hexDigit n ≠ '%' := by decide

set_option maxRecDepth 2000 in
theorem hexDigit_7E : ∀ b, b < 256 →
    (hexDigit (b / 16) = '7' ∧ hexDigit (b % 16) = 'E') → b = 126 := by decide

set_option maxRecDepth 2000 in
theorem ofNat_ne_percent : ∀ b, b < 128 → b ≠ 37 → Char.ofNat b ≠ '%' := by decide

theorem safe_cases (b : Nat) (h : (alwaysSafe b || pathSafe.contains b) = true) :
    ((65 ≤ b ∧ b ≤ 90) ∨ (97 ≤ b ∧ b ≤ 122) ∨ (48 ≤ b ∧ b ≤ 57) ∨
      b = 95 ∨ b = 46 ∨ b = 45) ∨ b = 47 ∨ b = 126 := by
  have h' : alwaysSafe b = true ∨ pathSafe.contains b = true := by simpa using h
  rcases h' with h1 | h2
  · exact Or.inl (of_decide_eq_true h1)
  · right
    have hmem : b ∈ pathSafe := List.elem_iff.mp h2
    simpa [pathSafe] using hmem

theorem hasPE_quoteByte_path (b : Nat) (hb : b < 256) (rest : List Char) :
    hasPE (quoteByte pathSafe b ++ rest) = hasPE rest := by
  unfold quoteByte
  by_cases hs : (alwaysSafe b || pathSafe.contains b) = true
  · rw [if_pos hs]
    have hb2 : b < 128 ∧ b ≠ 37 := by
      rcases safe_cases b hs with (⟨h1, h2⟩ | ⟨h1, h2⟩ | ⟨h1, h2⟩ | h1 | h1 | h1) | h1 | h1 <;>
        constructor <;> omega
    rw [List.singleton_append]
    exact hasPE_cons_ne _ _ (ofNat_ne_percent b hb2.1 hb2.2)
  · rw [if_neg hs]
    have hb126 : b ≠ 126 := by
      intro hq
      subst hq
      exact hs (by decide)
    have h7e : ¬(hexDigit (b / 16) = '7' ∧ hexDigit (b % 16) = 'E') :=
      fun hh => hb126 (hexDigit_7E b hb hh)
    have hq1 : hexDigit (b / 16) ≠ '%' := hexDigit_ne_percent _ (by omega)
    have hq2 : hexDigit (b % 16) ≠ '%' := hexDigit_ne_percent _ (by omega)
    have hsse : startsSevenE (hexDigit (b / 16) :: hexDigit (b % 16) :: rest) = false := by
      by_cases hx : hexDigit (b / 16) = '7'
      · have hy : hexDigit (b % 16) ≠ 'E' := fun hy => h7e ⟨hx, hy⟩
        simp [startsSevenE, hx, hy]
      · simp [startsSevenE, hx]
    show ((('%' : Char) == '%' &&
      startsSevenE (hexDigit (b / 16) :: hexDigit (b % 16) :: rest)) ||
      hasPE (hexDigit (b / 16) :: hexDigit (b % 16) :: rest)) = hasPE rest
    rw [hsse, hasPE_cons_ne _ _ hq1, hasPE_cons_ne _ _ hq2]
    simp

theorem hasPE_pythonQuote_path (bs : List Nat) (h : ∀ b ∈ bs, b < 256) :
    hasPE (pythonQuote pathSafe bs) = false := by
  induction bs with
  | nil => rfl
  | cons b bs ih =>
    unfold pythonQuote
    rw [hasPE_quoteByte_path b (h b (List.mem_cons_self b bs))]
    exact ih (fun x hx => h x (List.mem_cons_of_mem b hx))

/-- Claim C9: in links produced by `Request._encode_link`, the tilde is never
percent-encoded: the quoted path portion contains no `%7E` occurrence at all
(`'~'` is in the safe set `'/~'` and no other byte escapes to `%7E`), and
the encoded query-parameter portion produced by `fixed_urlencode` contains no
`%7E` occurrence (every one produced by `urlencode` is replaced by `'~'`). -/
theorem encode_link_tilde_never_percent_encoded
    (path : List Nat) (hpath : ∀ b ∈ path, b < 256)
    (params : List (List Nat × List (List Nat))) :
    hasPE (pythonQuote pathSafe path) = false ∧
    hasPE (fixed_urlencode params) = false :=
  ⟨hasPE_pythonQuote_path path hpath, hasPE_replacePE _⟩

/-- Witness for C9: the path `t~/%` (bytes 116, 126, 47, 37) and a parameter
pair whose key and value are both `~` (byte 126). -/
theorem encode_link_tilde_never_percent_encoded_witness :
    hasPE (pythonQuote pathSafe [116, 126, 47, 37]) = false ∧
    hasPE (fixed_urlencode [([126], [[126]])]) = false :=
  encode_link_tilde_never_percent_encoded [116, 126, 47, 37] (by decide)
    [([126], [[126]])]

end Morepath
